import Mathlib

/-!
Verification of the thermal-aware CPU affinity manager (`cpu_pin.py`).

The development shallowly embeds the control-loop core of the program:

* `get_socket_core_map` — topology discovery by parsing the output of the
  external `lscpu --extended` facility (modelled as an `Option String`:
  `none` when the subprocess raises, `some out` for its captured output);
* `selectCooler` — the coolest-socket choice performed in
  `MainWindow.refresh_all` (Python `min` over the sample's keys, keyed by
  temperature, over dict insertion order);
* `refresh_all` / `on_cooler_socket_changed` / `repinSweep` — the re-pin
  sweep triggered when the coolest socket changes;
* `pin_socket0` / `pin_socket1` — the manual pin buttons;
* `observe` / `autopinStep` / `autopinTick` — the auto-pin engine of
  `MainWindow.autopin_tick` with its per-pid consecutive-overload counter.

Machine integers do not overflow in the modelled code paths, so pids, socket
ids and core ids are `Int` (Python ints), tick counts are `Nat`, and CPU
utilization percentages and temperatures are `Rat` (the program only ever
compares them, so any ordered field models the comparisons; the concrete
values appearing in the claims are exactly representable).  External effects
(subprocess output, sensor readings, pin outcomes) are passed in as explicit
inputs.
-/

/-- Outcome of an OS-level affinity call (`psutil.Process(pid).cpu_affinity`):
it succeeds, raises `psutil.NoSuchProcess` (the process is gone), or raises
some other exception such as `psutil.AccessDenied`. -/
inductive PinResult
  | ok
  | gone
  | denied
  deriving DecidableEq, Repr

/-- Python `str.strip()`, restricted to the ASCII whitespace that
`Char.isWhitespace` recognizes (space, tab, carriage return, newline). -/
def pyStrip (s : String) : String :=
  String.mk (((s.data.dropWhile Char.isWhitespace).reverse.dropWhile Char.isWhitespace).reverse)

/-- Helper for `pySplitlines`: split a character list at newline characters,
`acc` holding the current line reversed. -/
def splitLinesAux (acc : List Char) : List Char → List String
  | [] => [String.mk acc.reverse]
  | c :: rest =>
    if c = '\n' then String.mk acc.reverse :: splitLinesAux [] rest
    else splitLinesAux (c :: acc) rest

/-- Python `str.splitlines()` for newline-separated text: the empty string
yields no lines.  (The program only applies it to stripped output, which never
ends in a newline, so the trailing-newline case needs no modelling.) -/
def pySplitlines (s : String) : List String :=
  if s.data = [] then [] else splitLinesAux [] s.data

/-- Helper for `pySplitWs`: tokenize a character list at whitespace runs,
`acc` holding the current token reversed. -/
def wsTokensAux (acc : List Char) : List Char → List String
  | [] => if acc = [] then [] else [String.mk acc.reverse]
  | c :: rest =>
    if c.isWhitespace then
      if acc = [] then wsTokensAux [] rest
      else String.mk acc.reverse :: wsTokensAux [] rest
    else wsTokensAux (c :: acc) rest

/-- Python `str.split()` with no arguments: split at runs of whitespace,
producing no empty tokens. -/
def pySplitWs (s : String) : List String :=
  wsTokensAux [] s.data

/-- Value of a nonempty all-digit character sequence, `none` otherwise. -/
def digitsVal? (cs : List Char) : Option Nat :=
  if cs ≠ [] ∧ cs.all Char.isDigit then
    some (cs.foldl (fun n c => n * 10 + (c.toNat - '0'.toNat)) 0)
  else none

/-- Python `int(s)` on a whitespace-free token: an optional sign followed by
decimal digits; anything else raises `ValueError`, modelled as `none`.
(Digit-group underscores, accepted by Python, do not occur in `lscpu`
output and are not modelled.) -/
def pyInt (s : String) : Option Int :=
  match s.data with
  | '+' :: rest => (digitsVal? rest).map (fun n => (n : Int))
  | '-' :: rest => (digitsVal? rest).map (fun n => -(n : Int))
  | cs => (digitsVal? cs).map (fun n => (n : Int))

/-- Python `list.index(x)` returning `none` instead of raising `ValueError`
when `x` is absent (the program catches that exception). -/
def pyIndex (l : List String) (x : String) : Option Nat :=
  match l with
  | [] => none
  | a :: rest => if a = x then some 0 else (pyIndex rest x).map (· + 1)

/-- `socket_map.setdefault(socket_id, []).append(cpu_id)`: append `v` to the
list stored under `k`, creating the entry at the end of the (insertion
ordered) dict when absent. -/
def dictAppend (m : List (Int × List Int)) (k : Int) (v : Int) : List (Int × List Int) :=
  match m with
  | [] => [(k, [v])]
  | (k0, l) :: rest => if k0 = k then (k0, l ++ [v]) :: rest else (k0, l) :: dictAppend rest k v

/-- Python `dict.get` on the socket map (keys are unique, so first match). -/
def lookupTopo (topo : List (Int × List Int)) (s : Int) : Option (List Int) :=
  match topo with
  | [] => none
  | (k, v) :: rest => if k = s then some v else lookupTopo rest s

/-- The header token of the `CPU` column, after `strip().upper()`. -/
def cpuColName : String := "CPU"

/-- The header token of the `SOCKET` column, after `strip().upper()`. -/
def socketColName : String := "SOCKET"

/-- `[c.strip().upper() for c in header.split()]` from `get_socket_core_map`. -/
def headerCols (header : String) : List String :=
  (pySplitWs header).map (fun c => String.mk ((pyStrip c).data.map Char.toUpper))

/-- The body of the row loop of `get_socket_core_map`: skip the row when it
has too few fields or either relevant field is not an integer, otherwise
append the cpu id under the socket id. -/
def parseRow (cpuIdx socketIdx : Nat) (m : List (Int × List Int)) (line : String) :
    List (Int × List Int) :=
  let parts := pySplitWs line
  if parts.length ≤ max cpuIdx socketIdx then m
  else
    match pyInt (parts.getD cpuIdx (String.mk [])), pyInt (parts.getD socketIdx (String.mk [])) with
    | some cpuId, some socketId => dictAppend m socketId cpuId
    | _, _ => m

/-- The single-socket fallback `{0: list(range(psutil.cpu_count()))}`. -/
def fallbackMap (cpuCount : Nat) : List (Int × List Int) :=
  [(0, (List.range cpuCount).map Int.ofNat)]

/-- `get_socket_core_map()` from `cpu_pin.py`.  `lscpuOut` is the output of
`subprocess.check_output(["lscpu", "--extended"])` (`none` when that call
raises), `cpuCount` is `psutil.cpu_count()`. -/
def get_socket_core_map (lscpuOut : Option String) (cpuCount : Nat) : List (Int × List Int) :=
  match lscpuOut with
  | none => fallbackMap cpuCount
  | some out =>
    match pySplitlines (pyStrip out) with
    | [] => fallbackMap cpuCount
    | header :: rest =>
      let cols := headerCols header
      match pyIndex cols cpuColName, pyIndex cols socketColName with
      | some cpuIdx, some socketIdx =>
        (rest.foldl (parseRow cpuIdx socketIdx) []).map
          (fun kv => (kv.1, List.insertionSort (· ≤ ·) kv.2))
      | _, _ => fallbackMap cpuCount

/-- Python `min(temps.keys(), key=lambda s: temps[s])` over a dict in
insertion order: fold keeping the current best entry, replacing it only when
a later entry's temperature is strictly smaller. -/
def pyMinKey (best : Option (Int × Rat)) : List (Int × Rat) → Option (Int × Rat)
  | [] => best
  | kv :: rest =>
    match best with
    | none => pyMinKey (some kv) rest
    | some b => pyMinKey (some (if kv.2 < b.2 then kv else b)) rest

/-- The coolest-socket choice of `MainWindow.refresh_all` (lines 444-450):
the sample key of minimum temperature when the sample is nonempty, else
socket 0 when it exists in the topology, else unknown (`none`). -/
def selectCooler (temps : List (Int × Rat)) (topo : List (Int × List Int)) : Option Int :=
  match temps with
  | [] => if (lookupTopo topo 0).isSome then some 0 else none
  | kv :: rest => (pyMinKey none (kv :: rest)).map Prod.fst

/-- The mutable state of `MainWindow` that the control loop owns:
`high_usage_counter` (absent pids read as 0, matching `dict.get(pid, 0)`),
`autopinned_pids`, and `current_cooler_socket`. -/
structure EngineState where
  counter : Int → Nat
  autopinned : List Int
  cooler : Option Int

/-- Python `set.add`: membership-preserving insert (`autopinned_pids.add`). -/
def pyAdd (l : List Int) (p : Int) : List Int :=
  if p ∈ l then l else l ++ [p]

/-- `MainWindow.HIGH_CPU_THRESHOLD` (percent). -/
def HIGH_CPU_THRESHOLD : Rat := 100

/-- `MainWindow.HIGH_CPU_DURATION` (consecutive ticks). -/
def HIGH_CPU_DURATION : Nat := 10

/-- Lines 562-565 of `autopin_tick` plus the read at line 567: increment the
pid's counter when utilization strictly exceeds the threshold, else reset it
to zero; return the post-update count together with the updated counter. -/
def observe (cnt : Int → Nat) (pid : Int) (cpu : Rat) : Nat × (Int → Nat) :=
  let c := if HIGH_CPU_THRESHOLD < cpu then cnt pid + 1 else 0
  (c, fun q => if q = pid then c else cnt q)

/-- The per-process body of the `autopin_tick` loop (lines 557-584), for a
process with the given pid and utilization.  `pinRes` is the outcome of the
`p.cpu_affinity(target)` call; when it raises (`gone`/`denied`), the broad
`except` clause skips the rest of the body, so the already-committed counter
update survives but the reset and the `autopinned_pids.add` do not.  Returns
the new state and `some r` when a pin was attempted with outcome `r`. -/
def autopinStep (st : EngineState) (pid : Int) (cpu : Rat) (pinRes : PinResult) :
    EngineState × Option PinResult :=
  let c := (observe st.counter pid cpu).1
  let cnt1 := (observe st.counter pid cpu).2
  if HIGH_CPU_DURATION ≤ c then
    match pinRes with
    | PinResult.ok =>
      ({ st with counter := fun q => if q = pid then 0 else cnt1 q,
                 autopinned := pyAdd st.autopinned pid }, some PinResult.ok)
    | r => ({ st with counter := cnt1 }, some r)
  else ({ st with counter := cnt1 }, none)

/-- Lines 546-551 of `autopin_tick`: use the current cooler socket, falling
back to socket 0 when it is unknown and socket 0 exists in the topology. -/
def coolerChoice (topo : List (Int × List Int)) (co : Option Int) : Option Int :=
  match co with
  | some c => some c
  | none => if (lookupTopo topo 0).isSome then some 0 else none

/-- One `MainWindow.autopin_tick`: do nothing unless auto-pin is enabled, a
cooler socket can be resolved and its core set is nonempty (`if not target:
return`); otherwise run the per-process body over the enumerated processes,
each given as (pid, utilization, pin outcome).  Returns the new state and
the attempted pins as (pid, outcome) in process order. -/
def autopinTick (autoHeavy : Bool) (topo : List (Int × List Int))
    (procs : List (Int × Rat × PinResult)) (st : EngineState) :
    EngineState × List (Int × PinResult) :=
  if autoHeavy then
    match coolerChoice topo st.cooler with
    | none => (st, [])
    | some c =>
      match lookupTopo topo c with
      | none => (st, [])
      | some [] => (st, [])
      | some (_ :: _) =>
        procs.foldl
          (fun acc pr =>
            let r := autopinStep acc.1 pr.1 pr.2.1 pr.2.2
            (r.1, acc.2 ++ (match r.2 with | none => [] | some res => [(pr.1, res)])))
          (st, [])
  else (st, [])

/-- A run of consecutive `autopin_tick`s (no interleaved refresh, so the
cooler socket and topology stay fixed), ticks numbered from `k`; attempted
pins are tagged with their tick number. -/
def autopinRunAux (autoHeavy : Bool) (topo : List (Int × List Int)) (k : Nat)
    (st : EngineState) : List (List (Int × Rat × PinResult)) →
    EngineState × List (Nat × Int × PinResult)
  | [] => (st, [])
  | t :: rest =>
    let r1 := autopinTick autoHeavy topo t st
    let r2 := autopinRunAux autoHeavy topo (k + 1) r1.1 rest
    (r2.1, r1.2.map (fun e => (k, e.1, e.2)) ++ r2.2)

/-- A run of `autopin_tick`s starting at tick 1. -/
def autopinRun (autoHeavy : Bool) (topo : List (Int × List Int)) (st : EngineState)
    (ticks : List (List (Int × Rat × PinResult))) :
    EngineState × List (Nat × Int × PinResult) :=
  autopinRunAux autoHeavy topo 1 st ticks

/-- The loop of `MainWindow._on_cooler_socket_changed` (lines 498-505): for
each auto-pinned pid (in order, over a copy of the set) attempt to pin it to
`target`; a pid whose process is gone is discarded from the set, any other
outcome leaves it in place.  Returns the remaining set and the attempts as
(pid, target) pairs. -/
def repinSweep (pins : Int → PinResult) (target : List Int) :
    List Int → List Int × List (Int × List Int)
  | [] => ([], [])
  | p :: rest =>
    let r := repinSweep pins target rest
    match pins p with
    | PinResult.gone => (r.1, (p, target) :: r.2)
    | _ => (p :: r.1, (p, target) :: r.2)

/-- `MainWindow._on_cooler_socket_changed`: no-op when the new socket has no
(nonempty) core set in the topology, otherwise the re-pin sweep. -/
def on_cooler_socket_changed (topo : List (Int × List Int)) (newSock : Int)
    (pins : Int → PinResult) (st : EngineState) : EngineState × List (Int × List Int) :=
  match lookupTopo topo newSock with
  | none => (st, [])
  | some [] => (st, [])
  | some (t :: ts) =>
    let r := repinSweep pins (t :: ts) st.autopinned
    ({ st with autopinned := r.1 }, r.2)

/-- The control-loop core of `MainWindow.refresh_all` (lines 436-457): when
not paused, select the new coolest socket from the sampled temperatures;
when it differs from the recorded one, record it and — if both old and new
are known — run the re-pin sweep.  Display updates carry no engine state and
are not modelled.  Returns the new state and the sweep's attempted pins. -/
def refresh_all (paused : Bool) (temps : List (Int × Rat)) (topo : List (Int × List Int))
    (pins : Int → PinResult) (st : EngineState) : EngineState × List (Int × List Int) :=
  if paused then (st, [])
  else
    let newCooler := selectCooler temps topo
    if newCooler ≠ st.cooler then
      let st1 := { st with cooler := newCooler }
      match st.cooler, newCooler with
      | some _, some n => on_cooler_socket_changed topo n pins st1
      | _, _ => (st1, [])
    else (st, [])

/-- `MainWindow.pin_socket0` (lines 521-528): when a row is selected
(`selPid ≥ 0`, else `selected_pid` returned -1) and socket 0 exists, attempt
the manual pin (`manualRes` — its failure is swallowed and it touches no
engine state) and then run `refresh_all`. -/
def pin_socket0 (selPid : Int) (paused : Bool) (temps : List (Int × Rat))
    (topo : List (Int × List Int)) (pins : Int → PinResult) (_manualRes : PinResult)
    (st : EngineState) : EngineState × List (Int × List Int) :=
  if 0 ≤ selPid ∧ (lookupTopo topo 0).isSome then refresh_all paused temps topo pins st
  else (st, [])

/-- `MainWindow.pin_socket1` (lines 530-537), identical with socket 1. -/
def pin_socket1 (selPid : Int) (paused : Bool) (temps : List (Int × Rat))
    (topo : List (Int × List Int)) (pins : Int → PinResult) (_manualRes : PinResult)
    (st : EngineState) : EngineState × List (Int × List Int) :=
  if 0 ≤ selPid ∧ (lookupTopo topo 1).isSome then refresh_all paused temps topo pins st
  else (st, [])

/-- A run of `observe` calls for one pid, returning the post-update counts
in order together with the final counter. -/
def observeRun (cnt : Int → Nat) (pid : Int) : List Rat → List Nat × (Int → Nat)
  | [] => ([], cnt)
  | u :: rest =>
    let r := observe cnt pid u
    let rr := observeRun r.2 pid rest
    (r.1 :: rr.1, rr.2)

/-- Ghost abstraction of `autopinStep` projected to a single pid: from the
pid's current count and whether it is over threshold, the new count and the
attempted pin's outcome (if any). -/
def absStep (c : Nat) (over : Bool) (r : PinResult) : Nat × Option PinResult :=
  let c1 := if over then c + 1 else 0
  if HIGH_CPU_DURATION ≤ c1 then
    match r with
    | PinResult.ok => (0, some PinResult.ok)
    | r1 => (c1, some r1)
  else (c1, none)

/-- Ghost abstraction of a single-pid `autopinRunAux`: the pid's count after
the run and the attempted pins tagged with tick numbers from `k`. -/
def absRunAux (k : Nat) (c : Nat) : List (Bool × PinResult) → Nat × List (Nat × PinResult)
  | [] => (c, [])
  | o :: rest =>
    let s := absStep c o.1 o.2
    let r := absRunAux (k + 1) s.1 rest
    (r.1, (match s.2 with | none => [] | some res => [(k, res)]) ++ r.2)

/-! ### Example `lscpu --extended` outputs used in witnesses and counterexamples -/

/-- Output with extra columns and interleaved sockets. -/
def exGood : String := "CPU NODE SOCKET CORE\n0 0 0 0\n1 0 1 1\n2 0 0 2"

/-- Output whose header lacks the required columns. -/
def exNoHeader : String := "FOO BAR\n0 0"

/-- Header line of `exNoHeader`. -/
def exNoHeaderLine1 : String := "FOO BAR"

/-- Data line of `exNoHeader`. -/
def exNoHeaderLine2 : String := "0 0"

/-- Output with a valid header whose only data row is malformed. -/
def exBadRows : String := "CPU SOCKET\nx y"

/-- Output with a valid header that repeats one cpu/socket row. -/
def exDupRows : String := "CPU SOCKET\n0 0\n0 0"

/-! ### Helper lemmas -/

/-- `pyIndex` fails exactly like `list.index` on an absent element. -/
theorem pyIndex_eq_none (l : List String) (x : String) (h : x ∉ l) : pyIndex l x = none := by
  induction l with
  | nil => rfl
  | cons a rest ih =>
    simp only [List.mem_cons, not_or] at h
    have hax : a ≠ x := fun e => h.1 e.symm
    simp only [pyIndex, if_neg hax, ih h.2, Option.map_none']

/-- The three fallback conditions of `get_socket_core_map`: the facility is
unavailable, its (stripped) output has no lines, or the header lacks the
`CPU` or the `SOCKET` column. -/
def fallbackInput (lscpuOut : Option String) : Prop :=
  lscpuOut = none ∨
  (∃ out, lscpuOut = some out ∧ pySplitlines (pyStrip out) = []) ∨
  (∃ out hd tl, lscpuOut = some out ∧ pySplitlines (pyStrip out) = hd :: tl ∧
    (cpuColName ∉ headerCols hd ∨ socketColName ∉ headerCols hd))

/-- On any fallback input, discovery returns the single synthetic socket. -/
theorem get_socket_core_map_fallback (lscpuOut : Option String) (n : Nat)
    (h : fallbackInput lscpuOut) :
    get_socket_core_map lscpuOut n = [(0, (List.range n).map Int.ofNat)] := by
  rcases h with h | ⟨out, rfl, hemp⟩ | ⟨out, hd, tl, rfl, hsplit, hcols⟩
  · subst h; rfl
  · simp [get_socket_core_map, hemp, fallbackMap]
  · have hidx : pyIndex (headerCols hd) cpuColName = none ∨
        pyIndex (headerCols hd) socketColName = none := by
      rcases hcols with h | h
      · exact Or.inl (pyIndex_eq_none _ _ h)
      · exact Or.inr (pyIndex_eq_none _ _ h)
    rcases hidx with h | h <;>
      · rcases h2 : pyIndex (headerCols hd) cpuColName with _ | i <;>
          rcases h3 : pyIndex (headerCols hd) socketColName with _ | j <;>
          simp_all [get_socket_core_map, hsplit, fallbackMap]

/-- The fallback core list `[0, 1, ..., n-1]` is ascending. -/
theorem sorted_range_map (n : Nat) : List.Sorted (· ≤ ·) ((List.range n).map Int.ofNat) :=
  List.Pairwise.map Int.ofNat (fun _ _ h => Int.ofNat_le.mpr (Nat.le_of_lt h))
    (List.pairwise_lt_range n)

/-- Every core list discovery returns is sorted ascending. -/
theorem get_socket_core_map_sorted (lscpuOut : Option String) (n : Nat) :
    ∀ kv ∈ get_socket_core_map lscpuOut n, List.Sorted (· ≤ ·) kv.2 := by
  intro kv hkv
  rcases lscpuOut with _ | out
  · simp only [get_socket_core_map, fallbackMap, List.mem_singleton] at hkv
    subst hkv; exact sorted_range_map n
  · rcases hsp : pySplitlines (pyStrip out) with _ | ⟨hd, tl⟩
    · simp only [get_socket_core_map, hsp, fallbackMap, List.mem_singleton] at hkv
      subst hkv; exact sorted_range_map n
    · rcases h2 : pyIndex (headerCols hd) cpuColName with _ | i <;>
        rcases h3 : pyIndex (headerCols hd) socketColName with _ | j <;>
        simp only [get_socket_core_map, hsp, h2, h3, fallbackMap, List.mem_singleton,
          List.mem_map] at hkv
      · subst hkv; exact sorted_range_map n
      · subst hkv; exact sorted_range_map n
      · subst hkv; exact sorted_range_map n
      · obtain ⟨pre, _, hpre⟩ := hkv
        subst hpre
        exact List.sorted_insertionSort (· ≤ ·) pre.2

/-- Python `min` over the sample returns an entry of minimum temperature
(first such in insertion order; here only min-attainment is stated). -/
theorem pyMinKey_some (l : List (Int × Rat)) : ∀ b : Int × Rat,
    ∃ m, pyMinKey (some b) l = some m ∧ (m = b ∨ m ∈ l) ∧ m.2 ≤ b.2 ∧
      ∀ kv ∈ l, m.2 ≤ kv.2 := by
  induction l with
  | nil => exact fun b => ⟨b, rfl, Or.inl rfl, le_refl _, by simp⟩
  | cons kv rest ih =>
    intro b
    by_cases hlt : kv.2 < b.2
    · obtain ⟨m, hm, hmem, hle, hall⟩ := ih kv
      refine ⟨m, ?_, ?_, ?_, ?_⟩
      · simpa [pyMinKey, if_pos hlt] using hm
      · rcases hmem with h | h
        · exact Or.inr (by simp [h])
        · exact Or.inr (by simp [h])
      · exact le_trans hle (le_of_lt hlt)
      · intro kv2 h2
        rcases List.mem_cons.mp h2 with h | h
        · subst h; exact hle
        · exact hall kv2 h
    · obtain ⟨m, hm, hmem, hle, hall⟩ := ih b
      refine ⟨m, ?_, ?_, ?_, ?_⟩
      · simpa [pyMinKey, if_neg hlt] using hm
      · rcases hmem with h | h
        · exact Or.inl h
        · exact Or.inr (by simp [h])
      · exact hle
      · intro kv2 h2
        rcases List.mem_cons.mp h2 with h | h
        · subst h; exact le_trans hle (not_lt.mp hlt)
        · exact hall kv2 h

/-- On a nonempty sample, the selected socket attains the minimum
temperature. -/
theorem selectCooler_attains_min (temps : List (Int × Rat)) (topo : List (Int × List Int))
    (h : temps ≠ []) :
    ∃ k v, selectCooler temps topo = some k ∧ (k, v) ∈ temps ∧
      ∀ kv ∈ temps, v ≤ kv.2 := by
  match temps with
  | [] => exact absurd rfl h
  | kv :: rest =>
    obtain ⟨m, hm, hmem, hle, hall⟩ := pyMinKey_some rest kv
    refine ⟨m.1, m.2, ?_, ?_, ?_⟩
    · simp only [selectCooler, pyMinKey, hm, Option.map_some']
    · rcases hmem with hh | hh
      · subst hh; exact List.mem_cons_self _ _
      · exact List.mem_cons_of_mem _ hh
    · intro kv2 h2
      rcases List.mem_cons.mp h2 with hh | hh
      · subst hh; exact hle
      · exact hall kv2 hh

/-! ### Claims C4-C8 -/

/-- C4 (counterexample): the claim says the tied sample `{0: 40.0, 1: 40.0}`
selects socket 0 regardless of the order in which its entries were produced;
but when the sample dict was populated in the order 1, 0, `min` keeps the
first-seen minimum and selects socket 1, not 0. -/
theorem coolest_tiebreak_order_cex :
    selectCooler [(1, 40), (0, 40)] [(0, [0, 1]), (1, [2, 3])] = some 1 ∧
    selectCooler [(1, 40), (0, 40)] [(0, [0, 1]), (1, [2, 3])] ≠ some 0 := by
  exact ⟨rfl, by decide⟩

/-- C4 (amended): for every non-empty temperature sample the selected socket
attains the minimum temperature, but ties go to the entry that appears first
in the sample's insertion order, not to the smallest socket id: the tied
sample selects 0 when produced in the order 0, 1 and selects 1 when produced
in the order 1, 0. -/
theorem coolest_socket_attains_min :
    (∀ (temps : List (Int × Rat)) (topo : List (Int × List Int)), temps ≠ [] →
      ∃ k v, selectCooler temps topo = some k ∧ (k, v) ∈ temps ∧
        ∀ kv ∈ temps, v ≤ kv.2) ∧
    selectCooler [(0, 40), (1, 40)] [(0, [0, 1]), (1, [2, 3])] = some 0 ∧
    selectCooler [(1, 40), (0, 40)] [(0, [0, 1]), (1, [2, 3])] = some 1 :=
  ⟨selectCooler_attains_min, rfl, rfl⟩

/-- C4 (witness): the amended theorem evaluated on the one-entry sample
`{0: 40.0}`. -/
theorem coolest_socket_attains_min_witness :
    ([((0 : Int), (40 : Rat))] ≠ []) ∧
    ∃ k v, selectCooler [((0 : Int), (40 : Rat))] [] = some k ∧
      (k, v) ∈ [((0 : Int), (40 : Rat))] ∧
      ∀ kv ∈ [((0 : Int), (40 : Rat))], v ≤ kv.2 :=
  ⟨by decide, coolest_socket_attains_min.1 [((0 : Int), (40 : Rat))] [] (by decide)⟩

/-- C5: on an empty temperature sample, the cooler-socket choice is socket 0
exactly when socket 0 exists in the topology, and unknown otherwise. -/
theorem empty_sample_defaults_to_socket0 (topo : List (Int × List Int)) :
    selectCooler [] topo = if (lookupTopo topo 0).isSome then some 0 else none := rfl

/-- C6: whenever the topology facility is unavailable, its stripped output
has no lines, or the header lacks the `CPU` or the `SOCKET` column,
discovery returns exactly one socket, id 0, holding cores `[0, ..., n-1]`
for `n` the OS-reported logical core count. -/
theorem discovery_fallback_single_socket (lscpuOut : Option String) (n : Nat)
    (h : fallbackInput lscpuOut) :
    get_socket_core_map lscpuOut n = [(0, (List.range n).map Int.ofNat)] :=
  get_socket_core_map_fallback lscpuOut n h

/-- C6 (witness): a header without the required columns falls back. -/
theorem discovery_fallback_single_socket_witness :
    fallbackInput (some exNoHeader) ∧
    get_socket_core_map (some exNoHeader) 2 = [(0, (List.range 2).map Int.ofNat)] :=
  ⟨Or.inr (Or.inr ⟨exNoHeader, exNoHeaderLine1, [exNoHeaderLine2], rfl, by decide,
      Or.inl (by decide)⟩),
    discovery_fallback_single_socket (some exNoHeader) 2
      (Or.inr (Or.inr ⟨exNoHeader, exNoHeaderLine1, [exNoHeaderLine2], rfl, by decide,
        Or.inl (by decide)⟩))⟩

/-- C7 (counterexample): an output with a valid header whose every data row
is skipped as malformed makes discovery return the empty topology, with no
socket at all — the fallback does not apply. -/
theorem discovery_empty_topology_cex : get_socket_core_map (some exBadRows) 4 = [] := rfl

/-- C7 (amended): discovery returns a nonempty topology on every fallback
input (facility unavailable, empty output, or missing header columns), but
an output whose header is valid and whose every data row is skipped yields
the empty topology rather than the single-socket fallback. -/
theorem discovery_nonempty_on_fallback :
    (∀ (lscpuOut : Option String) (n : Nat), fallbackInput lscpuOut →
      get_socket_core_map lscpuOut n ≠ []) ∧
    get_socket_core_map (some exBadRows) 4 = [] := by
  refine ⟨fun lscpuOut n h => ?_, rfl⟩
  rw [get_socket_core_map_fallback lscpuOut n h]
  exact List.cons_ne_nil _ _

/-- C7 (witness): the amended theorem evaluated on an unavailable facility. -/
theorem discovery_nonempty_on_fallback_witness :
    fallbackInput none ∧ get_socket_core_map none 3 ≠ [] :=
  ⟨Or.inl rfl, discovery_nonempty_on_fallback.1 none 3 (Or.inl rfl)⟩

/-- C8 (counterexample): duplicated input rows are not deduplicated — the
row `0 0` appearing twice leaves core 0 twice in socket 0's core list. -/
theorem discovery_duplicate_cores_cex :
    get_socket_core_map (some exDupRows) 4 = [(0, [0, 0])] ∧
    ¬ List.Nodup [(0 : Int), 0] :=
  ⟨rfl, by decide⟩

/-- C8 (amended): every core list discovery returns is sorted ascending, but
duplicates among the parsed rows are preserved, not deduplicated: each parsed
row contributes one entry to its socket's list. -/
theorem discovery_cores_sorted :
    (∀ (lscpuOut : Option String) (n : Nat), ∀ kv ∈ get_socket_core_map lscpuOut n,
      List.Sorted (· ≤ ·) kv.2) ∧
    get_socket_core_map (some exDupRows) 4 = [(0, [0, 0])] :=
  ⟨get_socket_core_map_sorted, rfl⟩

/-- C8 (witness): the sortedness statement evaluated on an out-of-order
multi-socket output. -/
theorem discovery_cores_sorted_witness :
    ((0 : Int), [(0 : Int), 2]) ∈ get_socket_core_map (some exGood) 8 ∧
    List.Sorted (· ≤ ·) [(0 : Int), 2] :=
  ⟨by decide, discovery_cores_sorted.1 (some exGood) 8 ((0 : Int), [(0 : Int), 2]) (by decide)⟩

/-- Over a streak of strictly-over-threshold observations, the post-update
counts continue the pid's current count: `c+1, c+2, ...`. -/
theorem observeRun_counts (pid : Int) : ∀ (cpus : List Rat) (cnt : Int → Nat),
    (∀ u ∈ cpus, HIGH_CPU_THRESHOLD < u) →
    (observeRun cnt pid cpus).1 = List.range' (cnt pid + 1) cpus.length := by
  intro cpus
  induction cpus with
  | nil => intro cnt _; rfl
  | cons u rest ih =>
    intro cnt h
    have hu : HIGH_CPU_THRESHOLD < u := h u (List.mem_cons_self _ _)
    have hrest : ∀ x ∈ rest, HIGH_CPU_THRESHOLD < x :=
      fun x hx => h x (List.mem_cons_of_mem _ hx)
    simp only [observeRun, observe, if_pos hu]
    rw [ih _ hrest]
    simp [List.range'_succ]

/-- C3: starting from a zero count, a pid observed strictly over threshold
for N consecutive ticks yields post-update counts 1, 2, ..., N in order; and
from any state, one at-or-below-threshold observation resets the pid's
count to 0, so the next over-threshold observation yields 1. -/
theorem observe_hysteresis (cnt : Int → Nat) (pid : Int) (cpus : List Rat)
    (h0 : cnt pid = 0) (hover : ∀ u ∈ cpus, HIGH_CPU_THRESHOLD < u) :
    (observeRun cnt pid cpus).1 = List.range' 1 cpus.length ∧
    (∀ (cnt2 : Int → Nat) (u1 u2 : Rat), u1 ≤ HIGH_CPU_THRESHOLD → HIGH_CPU_THRESHOLD < u2 →
      (observe cnt2 pid u1).1 = 0 ∧ (observe (observe cnt2 pid u1).2 pid u2).1 = 1) := by
  constructor
  · have h := observeRun_counts pid cpus cnt hover
    rwa [h0] at h
  · intro cnt2 u1 u2 hle hgt
    constructor
    · simp [observe, not_lt.mpr hle]
    · simp [observe, not_lt.mpr hle, hgt]

/-- C3 (witness): three ticks at 150% from a fresh counter count 1, 2, 3. -/
theorem observe_hysteresis_witness :
    ((fun _ : Int => 0) 1 = 0) ∧ (∀ u ∈ [(150 : Rat), 150, 150], HIGH_CPU_THRESHOLD < u) ∧
    ((observeRun (fun _ : Int => 0) 1 [(150 : Rat), 150, 150]).1 =
        List.range' 1 [(150 : Rat), 150, 150].length ∧
      (∀ (cnt2 : Int → Nat) (u1 u2 : Rat), u1 ≤ HIGH_CPU_THRESHOLD → HIGH_CPU_THRESHOLD < u2 →
        (observe cnt2 1 u1).1 = 0 ∧ (observe (observe cnt2 1 u1).2 1 u2).1 = 1)) :=
  ⟨rfl, by decide,
    observe_hysteresis (fun _ : Int => 0) 1 [(150 : Rat), 150, 150] rfl (by decide)⟩

/-- `pyAdd` inserts its argument. -/
theorem mem_pyAdd (l : List Int) (p : Int) : p ∈ pyAdd l p := by
  unfold pyAdd
  split
  · assumption
  · simp

/-- `pyAdd` is idempotent, like `set.add`. -/
theorem pyAdd_idem (l : List Int) (p : Int) : pyAdd (pyAdd l p) p = pyAdd l p := by
  show (if p ∈ pyAdd l p then pyAdd l p else pyAdd l p ++ [p]) = pyAdd l p
  rw [if_pos (mem_pyAdd l p)]

/-- One `autopinStep` projected onto the observed pid is exactly `absStep`
applied to that pid's count; other state components change accordingly. -/
theorem autopinStep_abs (st : EngineState) (pid : Int) (u : Rat) (r : PinResult) :
    (autopinStep st pid u r).1.counter pid =
      (absStep (st.counter pid) (decide (HIGH_CPU_THRESHOLD < u)) r).1 ∧
    (autopinStep st pid u r).2 =
      (absStep (st.counter pid) (decide (HIGH_CPU_THRESHOLD < u)) r).2 ∧
    (autopinStep st pid u r).1.autopinned =
      (if (absStep (st.counter pid) (decide (HIGH_CPU_THRESHOLD < u)) r).2 = some PinResult.ok
        then pyAdd st.autopinned pid else st.autopinned) ∧
    (autopinStep st pid u r).1.cooler = st.cooler := by
  by_cases hov : HIGH_CPU_THRESHOLD < u
  · by_cases hth : HIGH_CPU_DURATION ≤ st.counter pid + 1
    · cases r <;> simp [autopinStep, absStep, observe, hov, hth]
    · cases r <;> simp [autopinStep, absStep, observe, hov, hth]
  · cases r <;> simp [autopinStep, absStep, observe, hov, HIGH_CPU_DURATION]

/-- A tick over a single observed process reduces to one `autopinStep`, once
auto-pin is enabled and a cooler socket with a nonempty core set resolves. -/
theorem autopinTick_singleton (topo : List (Int × List Int)) (st : EngineState) (c0 : Int)
    (target : List Int) (pid : Int) (u : Rat) (r : PinResult)
    (h1 : coolerChoice topo st.cooler = some c0) (h2 : lookupTopo topo c0 = some target)
    (hne : target ≠ []) :
    autopinTick true topo [(pid, u, r)] st =
      ((autopinStep st pid u r).1,
        match (autopinStep st pid u r).2 with | none => [] | some res => [(pid, res)]) := by
  match target, hne with
  | t :: ts, _ =>
    simp only [autopinTick, h1, h2, List.foldl_cons, List.foldl_nil, List.nil_append,
      if_true, ite_true]

/-- Whether an attempted-pin event succeeded. -/
def isOkEvent (e : Nat × PinResult) : Bool :=
  match e.2 with
  | PinResult.ok => true
  | _ => false

/-- A run of single-process ticks is simulated, on the observed pid, by the
ghost single-pid run: same count, same attempted pins, and the pid joins
`autopinned_pids` exactly when some attempt succeeded. -/
theorem autopinRunAux_abs (topo : List (Int × List Int)) (c0 : Int) (target : List Int)
    (pid : Int) (h2 : lookupTopo topo c0 = some target) (hne : target ≠ []) :
    ∀ (obs : List (Rat × PinResult)) (k : Nat) (st : EngineState),
      coolerChoice topo st.cooler = some c0 →
      (autopinRunAux true topo k st (obs.map (fun o => [(pid, o.1, o.2)]))).1.counter pid =
        (absRunAux k (st.counter pid)
          (obs.map (fun o => (decide (HIGH_CPU_THRESHOLD < o.1), o.2)))).1 ∧
      (autopinRunAux true topo k st (obs.map (fun o => [(pid, o.1, o.2)]))).2 =
        (absRunAux k (st.counter pid)
          (obs.map (fun o => (decide (HIGH_CPU_THRESHOLD < o.1), o.2)))).2.map
          (fun e => (e.1, pid, e.2)) ∧
      ((autopinRunAux true topo k st (obs.map (fun o => [(pid, o.1, o.2)]))).1.autopinned =
        if (absRunAux k (st.counter pid)
              (obs.map (fun o => (decide (HIGH_CPU_THRESHOLD < o.1), o.2)))).2.any
            isOkEvent
          then pyAdd st.autopinned pid else st.autopinned) ∧
      (autopinRunAux true topo k st (obs.map (fun o => [(pid, o.1, o.2)]))).1.cooler =
        st.cooler := by
  intro obs
  induction obs with
  | nil => exact fun k st _ => ⟨rfl, by simp [autopinRunAux, absRunAux], by
      simp [autopinRunAux, absRunAux], rfl⟩
  | cons o rest ih =>
    intro k st h1
    obtain ⟨hstc, hste, hsta, hstco⟩ := autopinStep_abs st pid o.1 o.2
    have h1a : coolerChoice topo ((autopinStep st pid o.1 o.2).1).cooler = some c0 := by
      rw [hstco]; exact h1
    obtain ⟨ih1, ih2, ih3, ih4⟩ := ih (k + 1) (autopinStep st pid o.1 o.2).1 h1a
    have htick := autopinTick_singleton topo st c0 target pid o.1 o.2 h1 h2 hne
    have hrun : autopinRunAux true topo k st
        ((o :: rest).map (fun o => [(pid, o.1, o.2)])) =
        ((autopinRunAux true topo (k + 1) (autopinStep st pid o.1 o.2).1
            (rest.map (fun o => [(pid, o.1, o.2)]))).1,
          (match (autopinStep st pid o.1 o.2).2 with
            | none => ([] : List (Int × PinResult))
            | some res => [(pid, res)]).map (fun e : Int × PinResult => (k, e.1, e.2)) ++
          (autopinRunAux true topo (k + 1) (autopinStep st pid o.1 o.2).1
            (rest.map (fun o => [(pid, o.1, o.2)]))).2) := by
      simp only [List.map_cons, autopinRunAux, htick]
    have habs : absRunAux k (st.counter pid)
        ((o :: rest).map (fun o => (decide (HIGH_CPU_THRESHOLD < o.1), o.2))) =
        ((absRunAux (k + 1)
            (absStep (st.counter pid) (decide (HIGH_CPU_THRESHOLD < o.1)) o.2).1
            (rest.map (fun o => (decide (HIGH_CPU_THRESHOLD < o.1), o.2)))).1,
          (match (absStep (st.counter pid) (decide (HIGH_CPU_THRESHOLD < o.1)) o.2).2 with
            | none => ([] : List (Nat × PinResult))
            | some res => [(k, res)]) ++
          (absRunAux (k + 1)
            (absStep (st.counter pid) (decide (HIGH_CPU_THRESHOLD < o.1)) o.2).1
            (rest.map (fun o => (decide (HIGH_CPU_THRESHOLD < o.1), o.2)))).2) := by
      simp only [List.map_cons, absRunAux]
    rw [hrun, habs, ← hstc]
    dsimp only
    refine ⟨ih1, ?_, ?_, by rw [ih4, hstco]⟩
    · rw [ih2, hste, List.map_append]
      rcases habs2 : (absStep (st.counter pid) (decide (HIGH_CPU_THRESHOLD < o.1)) o.2).2
        with _ | res
      · simp
      · simp
    · rw [ih3, hsta]
      rcases habs2 : (absStep (st.counter pid) (decide (HIGH_CPU_THRESHOLD < o.1)) o.2).2
        with _ | res
      · simp [habs2]
      · cases res
        · simp [habs2, isOkEvent, pyAdd_idem]
        · simp [habs2, isOkEvent]
          rw [Bool.false_or]
        · simp [habs2, isOkEvent]
          rw [Bool.false_or]

/-- An all-over-threshold, all-pins-succeed observation list abstracts to a
constant boolean list. -/
theorem map_over_ok_replicate (cpus : List Rat)
    (hover : ∀ u ∈ cpus, HIGH_CPU_THRESHOLD < u) :
    (cpus.map (fun u => (u, PinResult.ok))).map
        (fun o => (decide (HIGH_CPU_THRESHOLD < o.1), o.2)) =
      List.replicate cpus.length (true, PinResult.ok) := by
  rw [List.map_map, List.eq_replicate_iff]
  constructor
  · simp
  · intro b hb
    obtain ⟨u, hu, rfl⟩ := List.mem_map.mp hb
    simp [Function.comp, hover u hu]

/-- A streak run from the fresh engine state, projected through the ghost
run on a constant over-threshold observation list. -/
theorem autopinRun_streak (pid : Int) (co : Option Int) (topo : List (Int × List Int))
    (c0 : Int) (target : List Int) (cpus : List Rat)
    (hover : ∀ u ∈ cpus, HIGH_CPU_THRESHOLD < u)
    (hc : coolerChoice topo co = some c0) (ht : lookupTopo topo c0 = some target)
    (hne : target ≠ []) :
    (autopinRun true topo ⟨fun _ => 0, [], co⟩
        (cpus.map (fun u => [(pid, u, PinResult.ok)]))).2 =
      (absRunAux 1 0 (List.replicate cpus.length (true, PinResult.ok))).2.map
        (fun e => (e.1, pid, e.2)) ∧
    (autopinRun true topo ⟨fun _ => 0, [], co⟩
        (cpus.map (fun u => [(pid, u, PinResult.ok)]))).1.counter pid =
      (absRunAux 1 0 (List.replicate cpus.length (true, PinResult.ok))).1 ∧
    (autopinRun true topo ⟨fun _ => 0, [], co⟩
        (cpus.map (fun u => [(pid, u, PinResult.ok)]))).1.autopinned =
      (if (absRunAux 1 0 (List.replicate cpus.length (true, PinResult.ok))).2.any isOkEvent
        then pyAdd [] pid else []) := by
  obtain ⟨e1, e2, e3, e4⟩ := autopinRunAux_abs topo c0 target pid ht hne
    (cpus.map (fun u => (u, PinResult.ok))) 1 ⟨fun _ => 0, [], co⟩ hc
  have hobs : (cpus.map (fun u => (u, PinResult.ok))).map (fun o => [(pid, o.1, o.2)]) =
      cpus.map (fun u => [(pid, u, PinResult.ok)]) := by
    simp [List.map_map, Function.comp]
  rw [hobs, map_over_ok_replicate cpus hover] at e1 e2 e3
  exact ⟨e2, e1, e3⟩

/-! ### Claim C1 -/

/-- C1: a process strictly over threshold for 25 consecutive ticks (pins
succeeding, a valid pin target available) is pinned exactly twice, at tick
10 and tick 20; after each pinning tick its counter is reset to 0 and it is
in `autopinned_pids`. -/
theorem autopin_pins_at_ticks_10_and_20 (pid : Int) (cpus : List Rat) (co : Option Int)
    (topo : List (Int × List Int)) (c0 : Int) (target : List Int)
    (hlen : cpus.length = 25)
    (hover : ∀ u ∈ cpus, HIGH_CPU_THRESHOLD < u)
    (hc : coolerChoice topo co = some c0)
    (ht : lookupTopo topo c0 = some target)
    (hne : target ≠ []) :
    (autopinRun true topo ⟨fun _ => 0, [], co⟩
        (cpus.map (fun u => [(pid, u, PinResult.ok)]))).2 =
      [(10, pid, PinResult.ok), (20, pid, PinResult.ok)] ∧
    (autopinRun true topo ⟨fun _ => 0, [], co⟩
        ((cpus.take 10).map (fun u => [(pid, u, PinResult.ok)]))).1.counter pid = 0 ∧
    pid ∈ (autopinRun true topo ⟨fun _ => 0, [], co⟩
        ((cpus.take 10).map (fun u => [(pid, u, PinResult.ok)]))).1.autopinned ∧
    (autopinRun true topo ⟨fun _ => 0, [], co⟩
        ((cpus.take 20).map (fun u => [(pid, u, PinResult.ok)]))).1.counter pid = 0 ∧
    pid ∈ (autopinRun true topo ⟨fun _ => 0, [], co⟩
        ((cpus.take 20).map (fun u => [(pid, u, PinResult.ok)]))).1.autopinned := by
  have habs25 : absRunAux 1 0 (List.replicate 25 (true, PinResult.ok)) =
      (5, [(10, PinResult.ok), (20, PinResult.ok)]) := by decide
  have habs10 : absRunAux 1 0 (List.replicate 10 (true, PinResult.ok)) =
      (0, [(10, PinResult.ok)]) := by decide
  have habs20 : absRunAux 1 0 (List.replicate 20 (true, PinResult.ok)) =
      (0, [(10, PinResult.ok), (20, PinResult.ok)]) := by decide
  have hover10 : ∀ u ∈ cpus.take 10, HIGH_CPU_THRESHOLD < u :=
    fun u hu => hover u (List.take_subset 10 cpus hu)
  have hover20 : ∀ u ∈ cpus.take 20, HIGH_CPU_THRESHOLD < u :=
    fun u hu => hover u (List.take_subset 20 cpus hu)
  have hlen10 : (cpus.take 10).length = 10 := by
    rw [List.length_take, hlen]; decide
  have hlen20 : (cpus.take 20).length = 20 := by
    rw [List.length_take, hlen]; decide
  obtain ⟨f1, f2, f3⟩ := autopinRun_streak pid co topo c0 target cpus hover hc ht hne
  obtain ⟨g1, g2, g3⟩ :=
    autopinRun_streak pid co topo c0 target (cpus.take 10) hover10 hc ht hne
  obtain ⟨k1, k2, k3⟩ :=
    autopinRun_streak pid co topo c0 target (cpus.take 20) hover20 hc ht hne
  rw [hlen] at f1 f2 f3
  rw [hlen10] at g1 g2 g3
  rw [hlen20] at k1 k2 k3
  rw [habs25] at f1
  rw [habs10] at g2 g3
  rw [habs20] at k2 k3
  refine ⟨by rw [f1]; rfl, by rw [g2], ?_, by rw [k2], ?_⟩
  · rw [g3]
    simp [isOkEvent, pyAdd]
  · rw [k3]
    simp [isOkEvent, pyAdd]

/-- C1 (witness): the theorem evaluated at pid 1 with 25 ticks at 150% on a
one-socket topology. -/
theorem autopin_pins_at_ticks_10_and_20_witness :
    (List.replicate 25 (150 : Rat)).length = 25 ∧
    (∀ u ∈ List.replicate 25 (150 : Rat), HIGH_CPU_THRESHOLD < u) ∧
    coolerChoice [((0 : Int), [(0 : Int), 1])] (some 0) = some 0 ∧
    lookupTopo [((0 : Int), [(0 : Int), 1])] 0 = some [0, 1] ∧
    ([(0 : Int), 1] ≠ ([] : List Int)) ∧
    (autopinRun true [((0 : Int), [(0 : Int), 1])] ⟨fun _ => 0, [], some 0⟩
        ((List.replicate 25 (150 : Rat)).map (fun u => [(1, u, PinResult.ok)]))).2 =
      [(10, 1, PinResult.ok), (20, 1, PinResult.ok)] :=
  ⟨by decide, by decide, rfl, rfl, by decide,
    (autopin_pins_at_ticks_10_and_20 1 (List.replicate 25 (150 : Rat)) (some 0)
      [((0 : Int), [(0 : Int), 1])] 0 [0, 1] (by decide) (by decide) rfl rfl (by decide)).1⟩

/-! ### Claim C10 -/

/-- While a pid stays over threshold with its count at the duration
threshold, a failing pin is attempted on every ghost tick and the count
keeps growing. -/
theorem absRunAux_fail_streak : ∀ (obs : List (Bool × PinResult)) (k c : Nat),
    HIGH_CPU_DURATION ≤ c + 1 →
    (∀ o ∈ obs, o.1 = true ∧ o.2 ≠ PinResult.ok) →
    ((absRunAux k c obs).2).length = obs.length ∧
    (absRunAux k c obs).1 = c + obs.length := by
  intro obs
  induction obs with
  | nil => exact fun k c _ _ => ⟨rfl, rfl⟩
  | cons o rest ih =>
    intro k c h1 h2
    obtain ⟨ho1, ho2⟩ := h2 o (List.mem_cons_self _ _)
    have hrest : ∀ x ∈ rest, x.1 = true ∧ x.2 ≠ PinResult.ok :=
      fun x hx => h2 x (List.mem_cons_of_mem _ hx)
    obtain ⟨o1, r⟩ := o
    simp only at ho1 ho2
    subst ho1
    have h1a : HIGH_CPU_DURATION ≤ (c + 1) + 1 := Nat.le_succ_of_le h1
    obtain ⟨l1, l2⟩ := ih (k + 1) (c + 1) h1a hrest
    cases r
    · exact absurd rfl ho2
    · simp [absRunAux, absStep, h1, l1, l2]
      omega
    · simp [absRunAux, absStep, h1, l1, l2]
      omega

/-- C10: when a pid's counter reaches the duration threshold on an
over-threshold tick but the pin raises, the committed counter increment
survives, the counter is not reset, the pid is not added to
`autopinned_pids`; and while the overload streak continues (pins still
failing), a pin is attempted again on every subsequent tick. -/
theorem failed_pin_keeps_state_and_retries (st : EngineState) (pid : Int) (u : Rat)
    (r : PinResult) (topo : List (Int × List Int)) (c0 : Int) (target : List Int)
    (hover : HIGH_CPU_THRESHOLD < u) (hfail : r ≠ PinResult.ok)
    (hth : HIGH_CPU_DURATION ≤ st.counter pid + 1)
    (hc : coolerChoice topo st.cooler = some c0)
    (ht : lookupTopo topo c0 = some target) (hne : target ≠ []) :
    (autopinStep st pid u r).1.counter pid = st.counter pid + 1 ∧
    (autopinStep st pid u r).1.autopinned = st.autopinned ∧
    (autopinStep st pid u r).2 = some r ∧
    ∀ (obs : List (Rat × PinResult)),
      (∀ o ∈ obs, HIGH_CPU_THRESHOLD < o.1 ∧ o.2 ≠ PinResult.ok) →
      ((autopinRunAux true topo 1 (autopinStep st pid u r).1
          (obs.map (fun o => [(pid, o.1, o.2)]))).2).length = obs.length := by
  obtain ⟨hstc, hste, hsta, hstco⟩ := autopinStep_abs st pid u r
  have hd : decide (HIGH_CPU_THRESHOLD < u) = true := decide_eq_true hover
  rw [hd] at hstc hste hsta
  have habs : absStep (st.counter pid) true r = (st.counter pid + 1, some r) := by
    cases r
    · exact absurd rfl hfail
    · simp [absStep, if_pos hth]
    · simp [absStep, if_pos hth]
  rw [habs] at hstc hste hsta
  have hsome : ¬ ((some r = some PinResult.ok)) := fun h => hfail (Option.some.inj h)
  rw [if_neg hsome] at hsta
  refine ⟨hstc, hsta, hste, ?_⟩
  intro obs hobs
  have hc2 : coolerChoice topo ((autopinStep st pid u r).1).cooler = some c0 := by
    rw [hstco]; exact hc
  obtain ⟨e1, e2, e3, e4⟩ := autopinRunAux_abs topo c0 target pid ht hne obs 1
    (autopinStep st pid u r).1 hc2
  rw [e2, List.length_map]
  have hbool : ∀ b ∈ obs.map (fun o => (decide (HIGH_CPU_THRESHOLD < o.1), o.2)),
      b.1 = true ∧ b.2 ≠ PinResult.ok := by
    intro b hb
    obtain ⟨x, hx, rfl⟩ := List.mem_map.mp hb
    obtain ⟨hx1, hx2⟩ := hobs x hx
    exact ⟨decide_eq_true hx1, hx2⟩
  have hth2 : HIGH_CPU_DURATION ≤ ((autopinStep st pid u r).1).counter pid + 1 := by
    rw [hstc]
    exact Nat.le_succ_of_le hth
  obtain ⟨l1, l2⟩ := absRunAux_fail_streak
    (obs.map (fun o => (decide (HIGH_CPU_THRESHOLD < o.1), o.2))) 1
    (((autopinStep st pid u r).1).counter pid) hth2 hbool
  rw [l1, List.length_map]

/-- C10 (witness): a pid at count 9 observed at 150% whose pin is denied;
state survives and three failing follow-up ticks each attempt a pin. -/
theorem failed_pin_keeps_state_and_retries_witness :
    HIGH_CPU_THRESHOLD < (150 : Rat) ∧
    PinResult.denied ≠ PinResult.ok ∧
    HIGH_CPU_DURATION ≤ (fun _ : Int => 9) 1 + 1 ∧
    ((autopinStep ⟨fun _ => 9, [], some 0⟩ 1 150 PinResult.denied).1.counter 1 = 9 + 1 ∧
      (autopinStep ⟨fun _ => 9, [], some 0⟩ 1 150 PinResult.denied).1.autopinned = [] ∧
      (autopinStep ⟨fun _ => 9, [], some 0⟩ 1 150 PinResult.denied).2 =
        some PinResult.denied ∧
      ∀ (obs : List (Rat × PinResult)),
        (∀ o ∈ obs, HIGH_CPU_THRESHOLD < o.1 ∧ o.2 ≠ PinResult.ok) →
        ((autopinRunAux true [((0 : Int), [(0 : Int), 1])] 1
            (autopinStep ⟨fun _ => 9, [], some 0⟩ 1 150 PinResult.denied).1
            (obs.map (fun o => [(1, o.1, o.2)]))).2).length = obs.length) :=
  ⟨by decide, by decide, by decide,
    failed_pin_keeps_state_and_retries ⟨fun _ => 9, [], some 0⟩ 1 150 PinResult.denied
      [((0 : Int), [(0 : Int), 1])] 0 [0, 1] (by decide) (by decide) (by decide) rfl rfl
      (by decide)⟩

/-! ### Claims C2 and C9 -/

/-- The sweep attempts to pin exactly the auto-pinned pids, in order, each
to the target core set. -/
theorem repinSweep_attempts (pins : Int → PinResult) (target : List Int) :
    ∀ l : List Int, (repinSweep pins target l).2 = l.map (fun p => (p, target)) := by
  intro l
  induction l with
  | nil => rfl
  | cons p rest ih =>
    rcases hp : pins p <;> simp [repinSweep, hp, ih]

/-- After the sweep, a pid remains auto-pinned exactly when it was and its
pin did not report the process gone. -/
theorem repinSweep_mem (pins : Int → PinResult) (target : List Int) :
    ∀ (l : List Int) (p : Int),
      p ∈ (repinSweep pins target l).1 ↔ (p ∈ l ∧ pins p ≠ PinResult.gone) := by
  intro l
  induction l with
  | nil => simp [repinSweep]
  | cons q rest ih =>
    intro p
    by_cases hpq : p = q
    · subst hpq
      rcases hq : pins p <;> simp [repinSweep, hq, ih p]
    · rcases hq : pins q <;>
        simp [repinSweep, hq, ih p, hpq]

/-- C2: when not paused, the previous cooler socket is known, the freshly
selected one is known and different, and the new socket has a nonempty core
set, the re-pin sweep attempts to pin every auto-pinned pid to that core
set; pids whose process is gone leave `autopinned_pids`, pids whose pin
fails otherwise stay, and the recorded cooler socket becomes the new one. -/
theorem cooler_change_triggers_sweep (st : EngineState) (temps : List (Int × Rat))
    (topo : List (Int × List Int)) (pins : Int → PinResult) (o n : Int) (target : List Int)
    (hold : st.cooler = some o) (hnew : selectCooler temps topo = some n) (hne : n ≠ o)
    (ht : lookupTopo topo n = some target) (htne : target ≠ []) :
    (refresh_all false temps topo pins st).2 =
      st.autopinned.map (fun p => (p, target)) ∧
    (∀ p, p ∈ (refresh_all false temps topo pins st).1.autopinned ↔
      (p ∈ st.autopinned ∧ pins p ≠ PinResult.gone)) ∧
    (refresh_all false temps topo pins st).1.cooler = some n := by
  have hnn : some n ≠ st.cooler := by
    rw [hold]
    exact fun h => hne (Option.some.inj h)
  obtain ⟨t, ts, rfl⟩ : ∃ t ts, target = t :: ts := by
    cases target with
    | nil => exact absurd rfl htne
    | cons t ts => exact ⟨t, ts, rfl⟩
  have hre : refresh_all false temps topo pins st =
      on_cooler_socket_changed topo n pins { st with cooler := some n } := by
    rw [refresh_all, if_neg (by simp)]
    rw [hnew]
    rw [if_pos hnn, hold]
  have hon : on_cooler_socket_changed topo n pins { st with cooler := some n } =
      ({ st with cooler := some n, autopinned := (repinSweep pins (t :: ts) st.autopinned).1 },
        (repinSweep pins (t :: ts) st.autopinned).2) := by
    rw [on_cooler_socket_changed, ht]
  rw [hre, hon]
  refine ⟨repinSweep_attempts pins (t :: ts) st.autopinned, ?_, rfl⟩
  intro p
  exact repinSweep_mem pins (t :: ts) st.autopinned p

/-- The gone pid is removed and the surviving pid re-pinned (spec's own
test vector for the sweep). -/
def pinsGone202 : Int → PinResult :=
  fun p => if p = 202 then PinResult.gone else PinResult.ok

/-- C2 (witness): AutoPinnedSet `{101, 202}`, cooler socket 0 → 1, topology
`{0: [0, 1], 1: [2, 3]}`, pid 202 gone: both pids are attempted on `[2, 3]`,
202 leaves the set, 101 stays. -/
theorem cooler_change_triggers_sweep_witness :
    ((⟨fun _ => 0, [101, 202], some 0⟩ : EngineState).cooler = some 0) ∧
    selectCooler [(0, 50), (1, 40)] [(0, [0, 1]), (1, [2, 3])] = some 1 ∧
    ((1 : Int) ≠ 0) ∧
    lookupTopo [(0, [0, 1]), (1, [2, 3])] 1 = some [2, 3] ∧
    ([(2 : Int), 3] ≠ ([] : List Int)) ∧
    ((refresh_all false [(0, 50), (1, 40)] [(0, [0, 1]), (1, [2, 3])] pinsGone202
        ⟨fun _ => 0, [101, 202], some 0⟩).2 =
      [101, 202].map (fun p => (p, [2, 3])) ∧
    (∀ p, p ∈ (refresh_all false [(0, 50), (1, 40)] [(0, [0, 1]), (1, [2, 3])] pinsGone202
        ⟨fun _ => 0, [101, 202], some 0⟩).1.autopinned ↔
      (p ∈ [(101 : Int), 202] ∧ pinsGone202 p ≠ PinResult.gone)) ∧
    (refresh_all false [(0, 50), (1, 40)] [(0, [0, 1]), (1, [2, 3])] pinsGone202
        ⟨fun _ => 0, [101, 202], some 0⟩).1.cooler = some 1) :=
  ⟨rfl, rfl, by decide, rfl, by decide,
    cooler_change_triggers_sweep ⟨fun _ => 0, [101, 202], some 0⟩
      [(0, 50), (1, 40)] [(0, [0, 1]), (1, [2, 3])] pinsGone202 0 1 [2, 3]
      rfl rfl (by decide) rfl (by decide)⟩

/-- The refresh never adds pids to `autopinned_pids` and only ever attempts
pins on pids already in it. -/
theorem refresh_all_frame (paused : Bool) (temps : List (Int × Rat))
    (topo : List (Int × List Int)) (pins : Int → PinResult) (st : EngineState) :
    (∀ p, p ∈ (refresh_all paused temps topo pins st).1.autopinned →
      p ∈ st.autopinned) ∧
    (∀ e ∈ (refresh_all paused temps topo pins st).2, e.1 ∈ st.autopinned) := by
  unfold refresh_all
  split
  · exact ⟨fun p hp => hp, by simp⟩
  · dsimp only
    split
    · split
      · rename_i o2 n2 ho2 hn2
        unfold on_cooler_socket_changed
        rcases ht : lookupTopo topo n2 with _ | target
        · exact ⟨fun p hp => hp, by simp⟩
        · rcases target with _ | ⟨t, ts⟩
          · exact ⟨fun p hp => hp, by simp⟩
          · constructor
            · intro p hp
              exact ((repinSweep_mem pins (t :: ts) st.autopinned p).mp hp).1
            · intro e he
              rw [repinSweep_attempts pins (t :: ts) st.autopinned] at he
              obtain ⟨q, hq, rfl⟩ := List.mem_map.mp he
              exact hq
      · exact ⟨fun p hp => hp, by simp⟩
    · exact ⟨fun p hp => hp, by simp⟩

/-- C9 (counterexample): the manual pin handler ends in a display refresh;
with the sweeping conditions met and pid 7's process gone, pressing the
socket-0 pin button for pid 5 shrinks AutoPinnedSet from `{7}` to `{}` — it
is not left unchanged. -/
theorem manual_pin_set_changed_cex :
    (pin_socket0 5 false [(0, 50), (1, 40)] [(0, [0, 1]), (1, [2, 3])]
        (fun _ => PinResult.gone) PinResult.ok ⟨fun _ => 0, [7], some 0⟩).1.autopinned = [] ∧
    (pin_socket0 5 false [(0, 50), (1, 40)] [(0, [0, 1]), (1, [2, 3])]
        (fun _ => PinResult.gone) PinResult.ok
        ⟨fun _ => 0, [7], some 0⟩).1.autopinned ≠ [7] :=
  ⟨rfl, by decide⟩

/-- C9 (amended): a manual pin never adds any pid to `autopinned_pids` (in
particular not the selected pid), and any sweep it triggers only touches
pids already auto-pinned; the set is not literally unchanged, though,
because the handler's embedded refresh can drop pids whose processes are
gone during a triggered re-pin sweep. -/
theorem manual_pin_adds_nothing (selPid : Int) (paused : Bool) (temps : List (Int × Rat))
    (topo : List (Int × List Int)) (pins : Int → PinResult) (r0 r1 : PinResult)
    (st : EngineState) :
    (∀ p, p ∈ (pin_socket0 selPid paused temps topo pins r0 st).1.autopinned →
      p ∈ st.autopinned) ∧
    (∀ e ∈ (pin_socket0 selPid paused temps topo pins r0 st).2, e.1 ∈ st.autopinned) ∧
    (∀ p, p ∈ (pin_socket1 selPid paused temps topo pins r1 st).1.autopinned →
      p ∈ st.autopinned) ∧
    (∀ e ∈ (pin_socket1 selPid paused temps topo pins r1 st).2, e.1 ∈ st.autopinned) ∧
    (selPid ∉ st.autopinned →
      selPid ∉ (pin_socket0 selPid paused temps topo pins r0 st).1.autopinned ∧
      selPid ∉ (pin_socket1 selPid paused temps topo pins r1 st).1.autopinned) := by
  obtain ⟨hf1, hf2⟩ := refresh_all_frame paused temps topo pins st
  have h0 : (∀ p, p ∈ (pin_socket0 selPid paused temps topo pins r0 st).1.autopinned →
      p ∈ st.autopinned) ∧
      (∀ e ∈ (pin_socket0 selPid paused temps topo pins r0 st).2, e.1 ∈ st.autopinned) := by
    unfold pin_socket0
    split
    · exact ⟨hf1, hf2⟩
    · exact ⟨fun p hp => hp, by simp⟩
  have h1 : (∀ p, p ∈ (pin_socket1 selPid paused temps topo pins r1 st).1.autopinned →
      p ∈ st.autopinned) ∧
      (∀ e ∈ (pin_socket1 selPid paused temps topo pins r1 st).2, e.1 ∈ st.autopinned) := by
    unfold pin_socket1
    split
    · exact ⟨hf1, hf2⟩
    · exact ⟨fun p hp => hp, by simp⟩
  exact ⟨h0.1, h0.2, h1.1, h1.2,
    fun hsel => ⟨fun hmem => hsel (h0.1 selPid hmem), fun hmem => hsel (h1.1 selPid hmem)⟩⟩

/-- C9 (witness): the amended theorem evaluated on the counterexample
scenario — the never-auto-pinned pid 5 is still absent after both manual
pins. -/
theorem manual_pin_adds_nothing_witness :
    ((5 : Int) ∉ ([7] : List Int)) ∧
    ((5 : Int) ∉ (pin_socket0 5 false [(0, 50), (1, 40)] [(0, [0, 1]), (1, [2, 3])]
        (fun _ => PinResult.gone) PinResult.ok ⟨fun _ => 0, [7], some 0⟩).1.autopinned ∧
      (5 : Int) ∉ (pin_socket1 5 false [(0, 50), (1, 40)] [(0, [0, 1]), (1, [2, 3])]
        (fun _ => PinResult.gone) PinResult.ok ⟨fun _ => 0, [7], some 0⟩).1.autopinned) :=
  ⟨by decide,
    (manual_pin_adds_nothing 5 false [(0, 50), (1, 40)] [(0, [0, 1]), (1, [2, 3])]
      (fun _ => PinResult.gone) PinResult.ok PinResult.ok
      ⟨fun _ => 0, [7], some 0⟩).2.2.2.2 (by decide)⟩
